import Mathlib

/-!
Shallow embedding of the BVH-tree cache and builders of
`source/blender/blenkernel/intern/bvhutils.cc`.

Conventions of the embedding:
* C pointers that may be null are modelled as `Option`.
* The `BitSpan` masks are modelled as `List Bool`; an absent mask (the
  default-constructed empty `BitVector` / empty `BitSpan`) is the empty list,
  exactly as the code itself only distinguishes masks through `is_empty()`.
* Machine `int` counts that use `-1` as a sentinel are modelled as `Int`.
* `float` scalar values are modelled as `ℚ`; the external geometric
  intersection routines (`BLI_math`, out of scope of the repository core) are
  abstracted as an oracle structure of functions.
* Memory allocation (`BLI_bvhtree_new`, `MEM_cnew`) is modelled as always
  succeeding; the `if (!tree) return nullptr` allocation-failure branches
  therefore never fire in the model.
* The code is single-threaded in the model: mutex lock/unlock are events
  without interleaving, and the double-checked re-read of a slot after taking
  the cache mutex re-reads the same state.
-/

namespace BVHUtils

/-- A 3-vector of rational coordinates, modelling `float[3]`. -/
abbrev Vec3 : Type := ℚ × ℚ × ℚ

/-- The zero vector, used as an out-of-range read default. -/
def vzero : Vec3 := (0, 0, 0)

/-- `MEdge`: an edge as a pair of vertex indices. -/
structure MEdge where
  v1 : Nat
  v2 : Nat
deriving Repr, DecidableEq

/-- `MFace`: a tessellated face; `v4 = 0` means a triangle, otherwise a quad. -/
structure MFace where
  v1 : Nat
  v2 : Nat
  v3 : Nat
  v4 : Nat
deriving Repr, DecidableEq

/-- Model of a populated `BVHTree`: the capacity requested from
`BLI_bvhtree_new` together with the list of inserted primitives, each recorded
as the tag passed to `BLI_bvhtree_insert` with its extent point set, in
insertion order. -/
structure BVHTree where
  maxsize : Nat
  epsilon : ℚ
  tree_type : Nat
  axis : Nat
  prims : List (Nat × List Vec3)
deriving Repr, DecidableEq

/-- `BLI_bvhtree_new`: allocate an empty hierarchy of the given capacity
(allocation modelled as always succeeding). -/
def bli_bvhtree_new (maxsize : Nat) (epsilon : ℚ) (tree_type : Nat) (axis : Nat) : BVHTree :=
  ⟨maxsize, epsilon, tree_type, axis, []⟩

/-- `BLI_bvhtree_insert`: append one primitive, tagged `i`, with its extent
point set. -/
def bli_bvhtree_insert (t : BVHTree) (i : Nat) (pts : List Vec3) : BVHTree :=
  { t with prims := t.prims ++ [(i, pts)] }

/-- The `BVHCacheType` enumeration (`BVHTREE_MAX_ITEM` is the slot count, not
a valid slot, so it is not a constructor). -/
inductive BVHCacheType where
  | from_verts
  | from_edges
  | from_faces
  | from_looptri
  | from_looptri_no_hidden
  | from_looseverts
  | from_looseedges
  | from_em_verts
  | from_em_edges
  | from_em_looptri
deriving Repr, DecidableEq

/-- All slot indices, in enumeration order: the loop bound `BVHTREE_MAX_ITEM`. -/
def allCacheTypes : List BVHCacheType :=
  [.from_verts, .from_edges, .from_faces, .from_looptri, .from_looptri_no_hidden,
   .from_looseverts, .from_looseedges, .from_em_verts, .from_em_edges, .from_em_looptri]

/-- `BVHCacheItem`: one slot, a filled flag plus a (possibly null) tree
pointer. Generic over the tree payload `T`; pointer identity is value
identity in the model. -/
structure BVHCacheItem (T : Type) where
  is_filled : Bool
  tree : Option T
deriving Repr, DecidableEq

/-- `BVHCache`: the fixed-size slot table (the mutex carries no data in a
sequential model). -/
structure BVHCache (T : Type) where
  items : BVHCacheType → BVHCacheItem T

/-- `bvhcache_init`: `MEM_cnew` zero-initializes every slot: not filled, null
tree. -/
def bvhcache_init (T : Type) : BVHCache T :=
  ⟨fun _ => ⟨false, none⟩⟩

/-- `bvhcache_insert`: store the (possibly null) tree and mark the slot
filled. The source `BLI_assert(!item->is_filled)` is the contract
`(c.items ty).is_filled = false`; the definition itself is total, as the
assert vanishes in release builds. -/
def bvhcache_insert {T : Type} (c : BVHCache T) (tree : Option T) (ty : BVHCacheType) :
    BVHCache T :=
  ⟨fun t => if t = ty then ⟨true, tree⟩ else c.items t⟩

/-- `bvhcache_has_tree`: null cache reports false; otherwise compare the
queried pointer against every slot's tree field (the filled flag is never
consulted). -/
def bvhcache_has_tree {T : Type} [DecidableEq T] (cacheP : Option (BVHCache T))
    (tree : Option T) : Bool :=
  match cacheP with
  | none => false
  | some c => allCacheTypes.any fun ty => (c.items ty).tree = tree

/-- Result of `bvhcache_find`: the return value, the `*r_tree` out-parameter
(meaningful on a hit), the possibly lazily-created cache pointer, and the
`*r_locked` out-parameter. -/
structure FindRes (T : Type) where
  found : Bool
  r_tree : Option T
  cache : Option (BVHCache T)
  locked : Bool

/-- Body of `bvhcache_find` once the cache exists: a filled slot is a hit
without locking; on a miss with a lock requested, the cache mutex is taken and
the slot re-checked — in this sequential model the state is unchanged, so the
re-check misses again and the mutex is left held (`*r_locked = true`). -/
def bvhcache_find_body {T : Type} (c : BVHCache T) (ty : BVHCacheType) (do_lock : Bool) :
    FindRes T :=
  if (c.items ty).is_filled then ⟨true, (c.items ty).tree, some c, false⟩
  else if do_lock then ⟨false, none, some c, true⟩
  else ⟨false, none, some c, false⟩

/-- `bvhcache_find`: with a null cache and no lock requested, report a miss
and do nothing; with a lock requested, lazily create the cache under the
mesh-eval mutex, then proceed as with an existing cache. -/
def bvhcache_find {T : Type} (cacheP : Option (BVHCache T)) (ty : BVHCacheType)
    (do_lock : Bool) : FindRes T :=
  match cacheP with
  | none =>
      if !do_lock then ⟨false, none, none, false⟩
      else bvhcache_find_body (bvhcache_init T) ty do_lock
  | some c => bvhcache_find_body c ty do_lock

/-- The caller-visible fields of a `BVHTreeFromMesh` / `BVHTreeFromEditMesh`
bundle that the free functions read: the tree pointer and the cached flag. -/
structure FreeBundle (T : Type) where
  tree : Option T
  cached : Bool
deriving Repr, DecidableEq

/-- `free_bvhtree_from_mesh`: free the tree iff it is non-null and not
cached; the struct is always zeroed. First component: was
`BLI_bvhtree_free` invoked on the bundle's tree. -/
def free_bvhtree_from_mesh {T : Type} (d : FreeBundle T) : Bool × FreeBundle T :=
  if d.tree.isSome && !d.cached then (true, ⟨none, false⟩)
  else (false, ⟨none, false⟩)

/-- `free_bvhtree_from_editmesh`: same freeing condition, but the struct is
only zeroed when the tree pointer is non-null. -/
def free_bvhtree_from_editmesh {T : Type} (d : FreeBundle T) : Bool × FreeBundle T :=
  if d.tree.isSome then
    (!d.cached, ⟨none, false⟩)
  else (false, d)

/-- The cache-mutating operations a live cache is subjected to (destroying the
cache ends its life and is therefore not a step on a live cache). -/
inductive CacheOp (T : Type) where
  | find (ty : BVHCacheType) (do_lock : Bool)
  | insert (tree : Option T) (ty : BVHCacheType)
  | unlock (lock_started : Bool)

/-- State transition of one operation on a live cache. `find` can only
lazily create a cache from a null pointer, so on a live cache it returns the
same table; `unlock` only touches the mutex. -/
def cacheStep {T : Type} (op : CacheOp T) (c : BVHCache T) : BVHCache T :=
  match op with
  | .find ty dl =>
      match (bvhcache_find (some c) ty dl).cache with
      | some c2 => c2
      | none => c
  | .insert t ty => bvhcache_insert c t ty
  | .unlock _ => c

/-- The `BLI_assert` contract of an operation: `bvhcache_insert` requires its
target slot to be empty; the other operations assert nothing about slots. -/
def opAssertOk {T : Type} (op : CacheOp T) (c : BVHCache T) : Prop :=
  match op with
  | .insert _ ty => (c.items ty).is_filled = false
  | _ => True

/-- All asserts hold along a trace of operations. -/
def traceAssertsOk {T : Type} : List (CacheOp T) → BVHCache T → Prop
  | [], _ => True
  | op :: rest, c => opAssertOk op c ∧ traceAssertsOk rest (cacheStep op c)

/-- `bvhtree_from_mesh_verts_create_tree`: resolve the active count (absent
mask means all candidates), return null on zero active; otherwise allocate and
insert every unmasked vertex tagged with its original index. -/
def bvhtree_from_mesh_verts_create_tree (epsilon : ℚ) (tree_type : Nat) (axis : Nat)
    (positions : List Vec3) (verts_num : Nat) (verts_mask : List Bool)
    (verts_num_active : Int) : Option BVHTree :=
  let act : Int := if verts_mask.isEmpty then (verts_num : Int) else verts_num_active
  if act = 0 then none
  else
    let tree0 := bli_bvhtree_new act.toNat epsilon tree_type axis
    some ((List.range verts_num).foldl
      (fun t i =>
        if !verts_mask.isEmpty && !(verts_mask.getD i false) then t
        else bli_bvhtree_insert t i [positions.getD i vzero]) tree0)

/-- `bvhtree_from_editmesh_verts_create_tree`: same insertion loop over the
edit-mesh vertex table, but with NO zero-active early return: the hierarchy is
allocated even for a zero active count. -/
def bvhtree_from_editmesh_verts_create_tree (epsilon : ℚ) (tree_type : Nat) (axis : Nat)
    (em_vert_cos : List Vec3) (verts_mask : List Bool) (verts_num_active : Int) :
    Option BVHTree :=
  let verts_num := em_vert_cos.length
  let act : Int := if verts_mask.isEmpty then (verts_num : Int) else verts_num_active
  let tree0 := bli_bvhtree_new act.toNat epsilon tree_type axis
  some ((List.range verts_num).foldl
    (fun t i =>
      if !verts_mask.isEmpty && !(verts_mask.getD i false) then t
      else bli_bvhtree_insert t i [em_vert_cos.getD i vzero]) tree0)

/-- `bvhtree_from_mesh_edges_create_tree`: resolve active count, null on zero
active, else insert every unmasked edge (endpoint pair) tagged with its
original index. -/
def bvhtree_from_mesh_edges_create_tree (positions : List Vec3) (edge : List MEdge)
    (edge_num : Nat) (edges_mask : List Bool) (edges_num_active : Int)
    (epsilon : ℚ) (tree_type : Nat) (axis : Nat) : Option BVHTree :=
  let act : Int := if edges_mask.isEmpty then (edge_num : Int) else edges_num_active
  if act = 0 then none
  else
    let tree0 := bli_bvhtree_new act.toNat epsilon tree_type axis
    some ((List.range edge_num).foldl
      (fun t i =>
        if !edges_mask.isEmpty && !(edges_mask.getD i false) then t
        else
          let e := edge.getD i ⟨0, 0⟩
          bli_bvhtree_insert t i [positions.getD e.v1 vzero, positions.getD e.v2 vzero])
      tree0)

/-- `bvhtree_from_mesh_faces_create_tree`: null only when the CANDIDATE count
is zero; a mask with zero active bits still allocates a (zero-capacity)
hierarchy. Inserts 4 extent points for quads, 3 for triangles, only when both
the position and face arrays are non-null. -/
def bvhtree_from_mesh_faces_create_tree (epsilon : ℚ) (tree_type : Nat) (axis : Nat)
    (positions : Option (List Vec3)) (face : Option (List MFace)) (faces_num : Nat)
    (faces_mask : List Bool) (faces_num_active : Int) : Option BVHTree :=
  if faces_num = 0 then none
  else
    let act : Int := if faces_mask.isEmpty then (faces_num : Int) else faces_num_active
    let tree0 := bli_bvhtree_new act.toNat epsilon tree_type axis
    match positions, face with
    | some ps, some fs =>
        some ((List.range faces_num).foldl
          (fun t i =>
            if !faces_mask.isEmpty && !(faces_mask.getD i false) then t
            else
              let f := fs.getD i ⟨0, 0, 0, 0⟩
              bli_bvhtree_insert t i
                (if f.v4 ≠ 0 then
                  [ps.getD f.v1 vzero, ps.getD f.v2 vzero, ps.getD f.v3 vzero,
                    ps.getD f.v4 vzero]
                else [ps.getD f.v1 vzero, ps.getD f.v2 vzero, ps.getD f.v3 vzero]))
          tree0)
    | _, _ => some tree0

/-- `bvhtree_from_mesh_looptri_create_tree`: resolve active count, null on
zero active, else insert every unmasked loop-triangle (3 vertex positions
reached through the loop array) tagged with its original index. -/
def bvhtree_from_mesh_looptri_create_tree (epsilon : ℚ) (tree_type : Nat) (axis : Nat)
    (positions : Option (List Vec3)) (mloop : List Nat)
    (looptris : List (Nat × Nat × Nat)) (looptri_mask : List Bool)
    (looptri_num_active : Int) : Option BVHTree :=
  let act : Int :=
    if looptri_mask.isEmpty then (looptris.length : Int) else looptri_num_active
  if act = 0 then none
  else
    let tree0 := bli_bvhtree_new act.toNat epsilon tree_type axis
    match positions with
    | some ps =>
        if looptris.isEmpty then some tree0
        else
          some ((List.range looptris.length).foldl
            (fun t i =>
              if !looptri_mask.isEmpty && !(looptri_mask.getD i false) then t
              else
                let lt := looptris.getD i (0, 0, 0)
                bli_bvhtree_insert t i
                  [ps.getD (mloop.getD lt.1 0) vzero,
                   ps.getD (mloop.getD lt.2.1 0) vzero,
                   ps.getD (mloop.getD lt.2.2 0) vzero])
            tree0)
    | none => some tree0

/-- One edge of the `loose_verts_map_get` scan: clear (and count) each still-set
endpoint bit. -/
def loose_verts_step (s : List Bool × Nat) (e : MEdge) : List Bool × Nat :=
  let s1 := if s.1.getD e.v1 false then (s.1.set e.v1 false, s.2 + 1) else s
  if s1.1.getD e.v2 false then (s1.1.set e.v2 false, s1.2 + 1) else s1

/-- `loose_verts_map_get`: start from an all-set mask, clear the endpoints of
every edge counting newly-cleared bits, and report
`verts_num - num_linked_verts` as the loose-vertex count. -/
def loose_verts_map_get (edges : List MEdge) (verts_num : Nat) : List Bool × Nat :=
  let s := edges.foldl loose_verts_step (List.replicate verts_num true, 0)
  (s.1, verts_num - s.2)

/-- `loose_edges_map_get`: only reads the surface-maintained loose-edge
classification and count. -/
def loose_edges_map_get (loose_edge_bits : List Bool) (loose_edge_count : Nat) :
    List Bool × Nat :=
  (loose_edge_bits, loose_edge_count)

/-- Model of `VArray<bool>`: either a single-value (uniform) virtual array or
a per-element array. -/
inductive VArrayBool where
  | single (b : Bool)
  | array (vals : List Bool)
deriving Repr, DecidableEq

/-- `VArray::is_single`: is this the single-value representation. -/
def VArrayBool.is_single : VArrayBool → Bool
  | .single _ => true
  | .array _ => false

/-- `VArray::get_internal_single` (only meaningful on a single varray). -/
def VArrayBool.get_internal_single : VArrayBool → Bool
  | .single b => b
  | .array _ => false

/-- Element lookup `hide_poly[i]`. -/
def VArrayBool.get : VArrayBool → Nat → Bool
  | .single b, _ => b
  | .array vals, i => vals.getD i false

/-- `ME_POLY_TRI_TOT`: a polygon with `totloop` corners tessellates into
`totloop - 2` triangles. -/
def ME_POLY_TRI_TOT (totloop : Nat) : Nat := totloop - 2

/-- `looptri_no_hidden_map_get`: if the hide attribute is a single (uniform)
varray whose value is false, return the empty mask without writing the count
out-parameter (second component `none`); otherwise walk the polygons in order,
setting each non-hidden polygon's triangles contiguously and counting them.
Polygons are modelled by their corner count `totloop`. -/
def looptri_no_hidden_map_get (polys : List Nat) (hide_poly : VArrayBool)
    (looptri_len : Nat) : List Bool × Option Nat :=
  if hide_poly.is_single && !hide_poly.get_internal_single then ([], none)
  else
    let s := (List.range polys.length).foldl
      (fun (st : List Bool × Nat × Nat) i =>
        let triangles_num := ME_POLY_TRI_TOT (polys.getD i 0)
        if hide_poly.get i then (st.1, st.2.1 + triangles_num, st.2.2)
        else
          ((List.range triangles_num).foldl (fun m k => m.set (st.2.1 + k) true) st.1,
            st.2.1 + triangles_num, st.2.2 + triangles_num))
      (List.replicate looptri_len false, 0, 0)
    (s.1, some s.2.2)

/-- The mesh fields read by `BKE_bvhtree_from_mesh_get`: primitive arrays,
the tessellated-face layer (null when absent), the hide attribute lookup
result, and the surface-maintained loose-edge cache. -/
structure Mesh where
  vert_positions : List Vec3
  edges : List MEdge
  loops : List Nat
  looptris : List (Nat × Nat × Nat)
  polys : List Nat
  mface : Option (List MFace)
  totface : Nat
  hide_poly : VArrayBool
  loose_edge_bits : List Bool
  loose_edge_count : Nat

/-- The build switch of `BKE_bvhtree_from_mesh_get`: derive the mask for the
loose/no-hidden variants (falling through to the plain builder call), and call
the matching builder; the edit-mesh variants assert false and leave the tree
null. -/
def mesh_get_build (mesh : Mesh) (ty : BVHCacheType) (tree_type : Nat) : Option BVHTree :=
  match ty with
  | .from_looseverts =>
      let r := loose_verts_map_get mesh.edges mesh.vert_positions.length
      bvhtree_from_mesh_verts_create_tree 0 tree_type 6 mesh.vert_positions
        mesh.vert_positions.length r.1 (r.2 : Int)
  | .from_verts =>
      bvhtree_from_mesh_verts_create_tree 0 tree_type 6 mesh.vert_positions
        mesh.vert_positions.length [] (-1)
  | .from_looseedges =>
      let r := loose_edges_map_get mesh.loose_edge_bits mesh.loose_edge_count
      bvhtree_from_mesh_edges_create_tree mesh.vert_positions mesh.edges
        mesh.edges.length r.1 (r.2 : Int) 0 tree_type 6
  | .from_edges =>
      bvhtree_from_mesh_edges_create_tree mesh.vert_positions mesh.edges
        mesh.edges.length [] (-1) 0 tree_type 6
  | .from_faces =>
      bvhtree_from_mesh_faces_create_tree 0 tree_type 6 (some mesh.vert_positions)
        mesh.mface mesh.totface [] (-1)
  | .from_looptri_no_hidden =>
      let r := looptri_no_hidden_map_get mesh.polys mesh.hide_poly mesh.looptris.length
      bvhtree_from_mesh_looptri_create_tree 0 tree_type 6 (some mesh.vert_positions)
        mesh.loops mesh.looptris r.1 ((r.2.map Int.ofNat).getD (-1))
  | .from_looptri =>
      bvhtree_from_mesh_looptri_create_tree 0 tree_type 6 (some mesh.vert_positions)
        mesh.loops mesh.looptris [] (-1)
  | _ => none

/-- Observable outcome of one `BKE_bvhtree_from_mesh_get` call: the returned
tree handle, the bundle's cached flag, the number of `BLI_bvhtree_insert`
calls performed, and the cache pointer afterwards. -/
structure GetResult where
  tree : Option BVHTree
  cached : Bool
  inserts : Nat
  cache : Option (BVHCache BVHTree)

/-- `BKE_bvhtree_from_mesh_get`: look up the slot with a lock requested; a hit
returns the cached (possibly null) tree with no insertions; a miss builds the
variant, balances, inserts the result (null included) into the slot and
unlocks. -/
def BKE_bvhtree_from_mesh_get (mesh : Mesh) (ty : BVHCacheType) (tree_type : Nat)
    (cacheP : Option (BVHCache BVHTree)) : GetResult :=
  let f := bvhcache_find cacheP ty true
  if f.found then ⟨f.r_tree, true, 0, f.cache⟩
  else
    match f.cache with
    | none => ⟨none, false, 0, none⟩
    | some c =>
        let built := mesh_get_build mesh ty tree_type
        ⟨built, true, (built.map fun t => t.prims.length).getD 0,
          some (bvhcache_insert c built ty)⟩

/-- `BVHTreeRay`: origin, direction and sweep radius. -/
structure BVHTreeRay where
  origin : Vec3
  direction : Vec3
  radius : ℚ

/-- `BVHTreeRayHit`: the running-best hit record (`index = -1`, `dist` large
when nothing was hit yet). -/
structure BVHTreeRayHit where
  index : Int
  dist : ℚ
  co : Vec3
  no : Vec3
deriving Repr, DecidableEq

/-- Oracle for the external geometric intersection routines of `BLI_math`
(out of the repository core): exact ray/triangle test, sweeping-sphere test
(returning the scaled parameter `idist`), and triangle normal. -/
structure GeomOracle where
  isect_ray_tri : Vec3 → Vec3 → Vec3 → Vec3 → Vec3 → Option ℚ
  isect_sweeping_sphere_tri : Vec3 → Vec3 → ℚ → Vec3 → Vec3 → Vec3 → Option ℚ
  normal_tri : Vec3 → Vec3 → Vec3 → Vec3

/-- Stand-in for the float `FLT_MAX` sentinel returned on an intersection
miss. -/
def FLT_MAX : ℚ := (2 : ℚ) ^ 128

/-- `madd_v3_v3v3fl`: `a + b * f` componentwise. -/
def vmadd (a b : Vec3) (f : ℚ) : Vec3 :=
  (a.1 + b.1 * f, a.2.1 + b.2.1 * f, a.2.2 + b.2.2 * f)

/-- `bvhtree_ray_tri_intersection`: the exact test's distance, or `FLT_MAX` on
a miss (the `m_dist` parameter is unused, as in the source). -/
def bvhtree_ray_tri_intersection (g : GeomOracle) (ray : BVHTreeRay) (m_dist : ℚ)
    (v0 v1 v2 : Vec3) : ℚ :=
  match g.isect_ray_tri ray.origin ray.direction v0 v1 v2 with
  | some dist => dist
  | none => FLT_MAX

/-- `bvhtree_sphereray_tri_intersection`: sweep a sphere from the origin to
`origin + direction * m_dist`; on a hit the parameter is rescaled by
`m_dist`. -/
def bvhtree_sphereray_tri_intersection (g : GeomOracle) (ray : BVHTreeRay) (radius : ℚ)
    (m_dist : ℚ) (v0 v1 v2 : Vec3) : ℚ :=
  let p1 := vmadd ray.origin ray.direction m_dist
  match g.isect_sweeping_sphere_tri ray.origin p1 radius v0 v1 v2 with
  | some idist => idist * m_dist
  | none => FLT_MAX

/-- The distance computed by one sphere-cast loop body: exact ray test for
radius zero, sweeping-sphere test otherwise, bounded by the current best. -/
def spherecast_new_dist (g : GeomOracle) (ray : BVHTreeRay) (best : ℚ)
    (t0 t1 t2 : Vec3) : ℚ :=
  if ray.radius = 0 then bvhtree_ray_tri_intersection g ray best t0 t1 t2
  else bvhtree_sphereray_tri_intersection g ray ray.radius best t0 t1 t2

/-- One sphere-cast loop body over a triangle, shared verbatim by the three
triangle adapters (the source marks the latter two as copies of the first):
compute the distance, then overwrite the hit record exactly when it is
non-negative and strictly below the current best. -/
def spherecast_tri_step (g : GeomOracle) (index : Nat) (ray : BVHTreeRay)
    (hit : BVHTreeRayHit) (t0 t1 t2 : Vec3) : BVHTreeRayHit :=
  let dist := spherecast_new_dist g ray hit.dist t0 t1 t2
  if 0 ≤ dist ∧ dist < hit.dist then
    ⟨(index : Int), dist, vmadd ray.origin ray.direction dist, g.normal_tri t0 t1 t2⟩
  else hit

/-- The `BVHTreeFromMesh` array fields the triangle adapters read. -/
structure BVHTreeFromMeshData where
  vert_positions : List Vec3
  face : List MFace
  loop : List Nat
  looptri : List (Nat × Nat × Nat)

/-- `mesh_faces_spherecast`: walk the triangle fan of the tessellated face
(one triangle, or two for a quad) with the shared loop body. -/
def mesh_faces_spherecast (g : GeomOracle) (data : BVHTreeFromMeshData) (index : Nat)
    (ray : BVHTreeRay) (hit : BVHTreeRayHit) : BVHTreeRayHit :=
  let f := data.face.getD index ⟨0, 0, 0, 0⟩
  let t0 := data.vert_positions.getD f.v1 vzero
  let t1 := data.vert_positions.getD f.v2 vzero
  let t2 := data.vert_positions.getD f.v3 vzero
  let hit1 := spherecast_tri_step g index ray hit t0 t1 t2
  if f.v4 ≠ 0 then
    spherecast_tri_step g index ray hit1 t0 t2 (data.vert_positions.getD f.v4 vzero)
  else hit1

/-- `mesh_looptri_spherecast`: fetch the loop-triangle's three vertex
positions through the loop array, then run the shared loop body once. -/
def mesh_looptri_spherecast (g : GeomOracle) (data : BVHTreeFromMeshData) (index : Nat)
    (ray : BVHTreeRay) (hit : BVHTreeRayHit) : BVHTreeRayHit :=
  let lt := data.looptri.getD index (0, 0, 0)
  spherecast_tri_step g index ray hit
    (data.vert_positions.getD (data.loop.getD lt.1 0) vzero)
    (data.vert_positions.getD (data.loop.getD lt.2.1 0) vzero)
    (data.vert_positions.getD (data.loop.getD lt.2.2 0) vzero)

/-- The edit-mesh fields the edit-mesh adapters read: the tessellated
loop-triangles with their vertex coordinates already resolved. -/
structure BMEditMesh where
  looptris : List (Vec3 × Vec3 × Vec3)

/-- `editmesh_looptri_spherecast`: fetch the edit-mesh loop-triangle's corner
coordinates, then run the shared loop body once. -/
def editmesh_looptri_spherecast (g : GeomOracle) (em : BMEditMesh) (index : Nat)
    (ray : BVHTreeRay) (hit : BVHTreeRayHit) : BVHTreeRayHit :=
  let lt := em.looptris.getD index (vzero, vzero, vzero)
  spherecast_tri_step g index ray hit lt.1 lt.2.1 lt.2.2

/-- Specification-side definition (from the spec's words, for refinement
comparison): the set of vertices referenced by at least one edge. -/
def touched_verts_spec (edges : List MEdge) : Finset Nat :=
  (edges.flatMap fun e => [e.v1, e.v2]).toFinset

/-- Specification-side definition (from the spec's words): the no-hidden
triangle mask as per-polygon contiguous blocks in tessellation order, each
block active exactly when its polygon is not hidden. -/
def no_hidden_mask_spec (polys : List Nat) (hide : VArrayBool) : List Bool :=
  ((List.range polys.length).map fun i =>
    List.replicate (ME_POLY_TRI_TOT (polys.getD i 0)) (!hide.get i)).flatten

/-- Specification-side definition (from the spec's words): overwrite the hit
record exactly when the new distance is non-negative and strictly below the
current best, otherwise leave it unchanged. -/
def hit_update_spec (index : Int) (d : ℚ) (co no : Vec3) (hit : BVHTreeRayHit) :
    BVHTreeRayHit :=
  if 0 ≤ d ∧ d < hit.dist then ⟨index, d, co, no⟩ else hit

/-! ### Helper lemmas about the cache -/

theorem bvhcache_find_some (T : Type) (c : BVHCache T) (ty : BVHCacheType) (dl : Bool) :
    bvhcache_find (some c) ty dl = bvhcache_find_body c ty dl := rfl

theorem bvhcache_find_body_cache (T : Type) (c : BVHCache T) (ty : BVHCacheType) (dl : Bool) :
    (bvhcache_find_body c ty dl).cache = some c := by
  unfold bvhcache_find_body
  split
  · rfl
  · split <;> rfl

theorem bvhcache_insert_self (T : Type) (c : BVHCache T) (t : Option T) (ty : BVHCacheType) :
    ((bvhcache_insert c t ty).items ty) = ⟨true, t⟩ := by
  simp [bvhcache_insert]

theorem bvhcache_insert_other (T : Type) (c : BVHCache T) (t : Option T)
    (ty ty2 : BVHCacheType) (h : ty2 ≠ ty) :
    ((bvhcache_insert c t ty).items ty2) = c.items ty2 := by
  simp [bvhcache_insert, h]

theorem cacheStep_preserves_filled (T : Type) (op : CacheOp T) (c : BVHCache T)
    (ty : BVHCacheType) (hok : opAssertOk op c) (hf : (c.items ty).is_filled = true) :
    (cacheStep op c).items ty = c.items ty := by
  cases op with
  | find ty2 dl =>
      simp only [cacheStep, bvhcache_find_some, bvhcache_find_body_cache]
  | insert t ty2 =>
      simp only [cacheStep]
      by_cases h : ty = ty2
      · subst h
        simp only [opAssertOk] at hok
        rw [hok] at hf
        exact absurd hf (by simp)
      · exact bvhcache_insert_other T c t ty2 ty h
  | unlock b => rfl

/-! ### Claim theorems about the raw cache (C3, C4 part 1, C5, C10) -/

/-- Claim C3: insert requires (asserts) the target slot to be empty, and along
any trace of cache operations whose asserts hold, a filled slot keeps its
filled flag and its tree unchanged — the empty-to-filled transition happens at
most once for the life of the cache. -/
theorem slot_filled_at_most_once (T : Type) (ops : List (CacheOp T)) (c : BVHCache T)
    (ty : BVHCacheType) (hok : traceAssertsOk ops c) (hf : (c.items ty).is_filled = true) :
    ((ops.foldl (fun s op => cacheStep op s) c).items ty) = c.items ty ∧
      (∀ t : Option T, opAssertOk (CacheOp.insert t ty) c ↔ (c.items ty).is_filled = false) := by
  refine ⟨?_, fun t => Iff.rfl⟩
  induction ops generalizing c with
  | nil => rfl
  | cons op rest ih =>
      obtain ⟨h1, h2⟩ := hok
      have hstep := cacheStep_preserves_filled T op c ty h1 hf
      have hfill2 : ((cacheStep op c).items ty).is_filled = true := by rw [hstep]; exact hf
      have := ih (cacheStep op c) h2 hfill2
      simpa [List.foldl, this] using hstep

/-- Witness for C3 at a concrete trace: a cache with the edges slot filled,
subjected to an insert into a different slot, a find, and an unlock. -/
theorem slot_filled_at_most_once_witness :
    (traceAssertsOk
        [CacheOp.insert (some 5) .from_verts, CacheOp.find .from_verts true,
         CacheOp.unlock false]
        (bvhcache_insert (bvhcache_init Nat) (some 7) .from_edges) ∧
      ((bvhcache_insert (bvhcache_init Nat) (some 7) .from_edges).items
          .from_edges).is_filled = true) ∧
    (([CacheOp.insert (some 5) .from_verts, CacheOp.find .from_verts true,
        CacheOp.unlock false].foldl (fun s op => cacheStep op s)
          (bvhcache_insert (bvhcache_init Nat) (some 7) .from_edges)).items .from_edges) =
        (bvhcache_insert (bvhcache_init Nat) (some 7) .from_edges).items .from_edges ∧
      (∀ t : Option Nat,
        opAssertOk (CacheOp.insert t .from_edges)
            (bvhcache_insert (bvhcache_init Nat) (some 7) .from_edges) ↔
          ((bvhcache_insert (bvhcache_init Nat) (some 7) .from_edges).items
              .from_edges).is_filled = false) := by
  refine ⟨⟨?_, ?_⟩, ?_⟩
  · exact ⟨by simp [bvhcache_insert, bvhcache_init, opAssertOk], trivial, trivial, trivial⟩
  · rfl
  · exact slot_filled_at_most_once Nat _ _ .from_edges
      ⟨by simp [bvhcache_insert, bvhcache_init, opAssertOk], trivial, trivial, trivial⟩
      rfl

/-- Claim C5: for a bundle holding an index, release frees the index iff
`cached = false`, for both the mesh and the edit-mesh variant; a cached
bundle's index is left untouched. -/
theorem release_frees_iff_not_cached (T : Type) (d : FreeBundle T) (h : d.tree ≠ none) :
    ((free_bvhtree_from_mesh d).1 = true ↔ d.cached = false) ∧
      ((free_bvhtree_from_editmesh d).1 = true ↔ d.cached = false) ∧
      (d.cached = true → (free_bvhtree_from_mesh d).1 = false ∧
        (free_bvhtree_from_editmesh d).1 = false) := by
  have hs : d.tree.isSome = true := Option.isSome_iff_ne_none.mpr h
  refine ⟨?_, ?_, ?_⟩
  · cases hc : d.cached <;> simp [free_bvhtree_from_mesh, hs, hc]
  · cases hc : d.cached <;> simp [free_bvhtree_from_editmesh, hs, hc]
  · intro hc
    simp [free_bvhtree_from_mesh, free_bvhtree_from_editmesh, hs, hc]

/-- Witness for C5 at a concrete bundle: an uncached bundle holding tree 3. -/
theorem release_frees_iff_not_cached_witness :
    ((FreeBundle.mk (some 3) false : FreeBundle Nat).tree ≠ none) ∧
      (((free_bvhtree_from_mesh (FreeBundle.mk (some 3) false : FreeBundle Nat)).1 = true ↔
          (FreeBundle.mk (some 3) false : FreeBundle Nat).cached = false) ∧
        ((free_bvhtree_from_editmesh (FreeBundle.mk (some 3) false : FreeBundle Nat)).1 = true ↔
          (FreeBundle.mk (some 3) false : FreeBundle Nat).cached = false) ∧
        ((FreeBundle.mk (some 3) false : FreeBundle Nat).cached = true →
          (free_bvhtree_from_mesh (FreeBundle.mk (some 3) false : FreeBundle Nat)).1 = false ∧
          (free_bvhtree_from_editmesh (FreeBundle.mk (some 3) false : FreeBundle Nat)).1 =
            false)) :=
  ⟨by simp, release_frees_iff_not_cached Nat ⟨some 3, false⟩ (by simp)⟩

/-- Claim C10: `bvhcache_has_tree` is false on a null cache; on a non-null cache
it is true exactly when some slot's tree field equals the query, never reading
the filled flag (re-flagging every slot arbitrarily does not change the
answer); consequently, under the zero-initialization invariant (an unfilled
slot has a null tree), a cache with an unfilled slot, or with a slot filled
with a null tree, answers true to a null-pointer query. -/
theorem has_tree_characterization (T : Type) [DecidableEq T] (c : BVHCache T)
    (q : Option T) (flags : BVHCacheType → Bool)
    (hinv : ∀ ty, (c.items ty).is_filled = false → (c.items ty).tree = none)
    (hslot : ∃ ty, (c.items ty).is_filled = false ∨
      ((c.items ty).is_filled = true ∧ (c.items ty).tree = none)) :
    bvhcache_has_tree (none : Option (BVHCache T)) q = false ∧
      (bvhcache_has_tree (some c) q = true ↔ ∃ ty, (c.items ty).tree = q) ∧
      bvhcache_has_tree
          (some ⟨fun ty => ⟨flags ty, (c.items ty).tree⟩⟩ : Option (BVHCache T)) q =
        bvhcache_has_tree (some c) q ∧
      bvhcache_has_tree (some c) none = true := by
  have hall : ∀ ty : BVHCacheType, ty ∈ allCacheTypes := by
    intro ty; cases ty <;> simp [allCacheTypes]
  refine ⟨rfl, ?_, ?_, ?_⟩
  · simp only [bvhcache_has_tree, List.any_eq_true, decide_eq_true_eq]
    constructor
    · rintro ⟨ty, _, h⟩; exact ⟨ty, h⟩
    · rintro ⟨ty, h⟩; exact ⟨ty, hall ty, h⟩
  · simp only [bvhcache_has_tree]
  · simp only [bvhcache_has_tree, List.any_eq_true, decide_eq_true_eq]
    obtain ⟨ty, hty⟩ := hslot
    refine ⟨ty, hall ty, ?_⟩
    rcases hty with h | ⟨_, h⟩
    · exact hinv ty h
    · exact h

/-- Witness for C10 at a concrete cache: a fresh cache with tree 9 inserted
into the verts slot (all other slots unfilled and null). -/
theorem has_tree_characterization_witness :
    ((∀ ty, ((bvhcache_insert (bvhcache_init Nat) (some 9) .from_verts).items ty).is_filled =
          false →
        ((bvhcache_insert (bvhcache_init Nat) (some 9) .from_verts).items ty).tree = none) ∧
      (∃ ty, ((bvhcache_insert (bvhcache_init Nat) (some 9) .from_verts).items ty).is_filled =
            false ∨
        (((bvhcache_insert (bvhcache_init Nat) (some 9) .from_verts).items ty).is_filled = true ∧
          ((bvhcache_insert (bvhcache_init Nat) (some 9) .from_verts).items ty).tree = none))) ∧
    (bvhcache_has_tree (none : Option (BVHCache Nat)) (some 9) = false ∧
      (bvhcache_has_tree (some (bvhcache_insert (bvhcache_init Nat) (some 9) .from_verts))
          (some 9) = true ↔
        ∃ ty, ((bvhcache_insert (bvhcache_init Nat) (some 9) .from_verts).items ty).tree =
          some 9) ∧
      bvhcache_has_tree
          (some ⟨fun ty =>
            ⟨true,
              ((bvhcache_insert (bvhcache_init Nat) (some 9) .from_verts).items ty).tree⟩⟩ :
            Option (BVHCache Nat)) (some 9) =
        bvhcache_has_tree (some (bvhcache_insert (bvhcache_init Nat) (some 9) .from_verts))
          (some 9) ∧
      bvhcache_has_tree (some (bvhcache_insert (bvhcache_init Nat) (some 9) .from_verts))
        none = true) := by
  refine ⟨⟨?_, ?_⟩, ?_⟩
  · intro ty
    cases ty <;> simp [bvhcache_insert, bvhcache_init]
  · exact ⟨.from_edges, Or.inl (by simp [bvhcache_insert, bvhcache_init])⟩
  · exact has_tree_characterization Nat _ (some 9) (fun _ => true)
      (by intro ty; cases ty <;> simp [bvhcache_insert, bvhcache_init])
      ⟨.from_edges, Or.inl (by simp [bvhcache_insert, bvhcache_init])⟩

/-! ### Helper lemmas about the acquisition entry point -/

theorem mesh_get_hit (mesh : Mesh) (ty : BVHCacheType) (tree_type : Nat)
    (c : BVHCache BVHTree) (tr : Option BVHTree) (h : c.items ty = ⟨true, tr⟩) :
    BKE_bvhtree_from_mesh_get mesh ty tree_type (some c) = ⟨tr, true, 0, some c⟩ := by
  simp [BKE_bvhtree_from_mesh_get, bvhcache_find, bvhcache_find_body, h]

theorem mesh_get_fills (mesh : Mesh) (ty : BVHCacheType) (tree_type : Nat)
    (s : Option (BVHCache BVHTree)) :
    ∃ c, (BKE_bvhtree_from_mesh_get mesh ty tree_type s).cache = some c ∧
      c.items ty = ⟨true, (BKE_bvhtree_from_mesh_get mesh ty tree_type s).tree⟩ := by
  cases s with
  | none =>
      refine ⟨bvhcache_insert (bvhcache_init BVHTree) (mesh_get_build mesh ty tree_type) ty,
        ?_, ?_⟩
      · simp [BKE_bvhtree_from_mesh_get, bvhcache_find, bvhcache_find_body, bvhcache_init]
      · simp [BKE_bvhtree_from_mesh_get, bvhcache_find, bvhcache_find_body, bvhcache_init,
          bvhcache_insert]
  | some c =>
      by_cases hf : (c.items ty).is_filled
      · refine ⟨c, ?_, ?_⟩
        · simp [BKE_bvhtree_from_mesh_get, bvhcache_find, bvhcache_find_body, hf]
        · cases hitem : c.items ty with
          | mk fl tr =>
              rw [hitem] at hf
              simp only at hf
              subst hf
              simp [BKE_bvhtree_from_mesh_get, bvhcache_find, bvhcache_find_body, hitem]
      · refine ⟨bvhcache_insert c (mesh_get_build mesh ty tree_type) ty, ?_, ?_⟩
        · simp [BKE_bvhtree_from_mesh_get, bvhcache_find, bvhcache_find_body, hf]
        · simp [BKE_bvhtree_from_mesh_get, bvhcache_find, bvhcache_find_body, hf,
            bvhcache_insert]

/-! ### Claim theorems about acquisition (C1, C4) -/

/-- Claim C1: two consecutive acquire calls with the same cache and cache type
return the same tree handle; the second call takes the cache-hit path: it
performs zero insertions, reports cached, and leaves the cache untouched —
for every mesh, every variant, and every starting cache state. -/
theorem acquire_idempotent (mesh : Mesh) (ty : BVHCacheType) (tree_type : Nat)
    (s : Option (BVHCache BVHTree)) :
    (BKE_bvhtree_from_mesh_get mesh ty tree_type
        (BKE_bvhtree_from_mesh_get mesh ty tree_type s).cache).tree =
      (BKE_bvhtree_from_mesh_get mesh ty tree_type s).tree ∧
    (BKE_bvhtree_from_mesh_get mesh ty tree_type
        (BKE_bvhtree_from_mesh_get mesh ty tree_type s).cache).inserts = 0 ∧
    (BKE_bvhtree_from_mesh_get mesh ty tree_type
        (BKE_bvhtree_from_mesh_get mesh ty tree_type s).cache).cached = true ∧
    (BKE_bvhtree_from_mesh_get mesh ty tree_type
        (BKE_bvhtree_from_mesh_get mesh ty tree_type s).cache).cache =
      (BKE_bvhtree_from_mesh_get mesh ty tree_type s).cache := by
  obtain ⟨c, hc, hitem⟩ := mesh_get_fills mesh ty tree_type s
  rw [hc, mesh_get_hit mesh ty tree_type c _ hitem]
  exact ⟨rfl, rfl, rfl, rfl⟩

/-- Claim C4: inserting an explicitly null tree marks the slot filled; every
subsequent find on that variant is a hit returning the null tree without
taking the lock (the hit is decided by the filled flag, not the tree), and an
acquire on such a slot returns the cached null with zero insertions — the
absent result is never rebuilt. -/
theorem null_tree_cached (T : Type) (c : BVHCache T) (ty : BVHCacheType) (dl : Bool)
    (mesh : Mesh) (tree_type : Nat) (cm : BVHCache BVHTree) :
    bvhcache_find (some (bvhcache_insert c none ty)) ty dl =
      ⟨true, none, some (bvhcache_insert c none ty), false⟩ ∧
    ((bvhcache_insert c none ty).items ty).is_filled = true ∧
    BKE_bvhtree_from_mesh_get mesh ty tree_type (some (bvhcache_insert cm none ty)) =
      ⟨none, true, 0, some (bvhcache_insert cm none ty)⟩ := by
  refine ⟨?_, ?_, ?_⟩
  · simp [bvhcache_find, bvhcache_find_body, bvhcache_insert]
  · simp [bvhcache_insert]
  · exact mesh_get_hit mesh ty tree_type _ none (bvhcache_insert_self BVHTree cm none ty)

/-! ### Helper lemmas about the insertion loops -/

theorem foldl_insert_prims (q : Nat → Bool) (pts : Nat → List Vec3) (t0 : BVHTree) (n : Nat) :
    ((List.range n).foldl (fun t i => if q i then t else bli_bvhtree_insert t i (pts i)) t0)
      = { t0 with prims :=
            t0.prims ++ (((List.range n).filter fun i => !q i).map fun i => (i, pts i)) } := by
  induction n with
  | zero => simp
  | succ n ih =>
      rw [List.range_succ, List.foldl_append, ih]
      by_cases hq : q n <;>
        simp [hq, bli_bvhtree_insert, List.filter_append]

theorem foldl_insert_skip (q : Nat → Bool) (pts : Nat → List Vec3) (t0 : BVHTree) (n : Nat)
    (h : ∀ i, q i = true) :
    ((List.range n).foldl (fun t i => if q i then t else bli_bvhtree_insert t i (pts i)) t0)
      = t0 := by
  rw [foldl_insert_prims]
  simp [h]

/-! ### Claim theorems about the builders (C9, C2) -/

/-- Claim C9: every masked builder iterates candidates in original index
order and inserts each active primitive tagged with its original candidate
index: the tag list of the built tree is exactly the increasing list of
indices the mask selects, never a renumbered one — for the mesh edge, vertex,
tessellated-face and loop-triangle builders and the edit-mesh vertex
builder. -/
theorem builders_preserve_original_indices (positions : List Vec3) (edge : List MEdge)
    (face : List MFace) (faces_num : Nat) (mloop : List Nat)
    (looptris : List (Nat × Nat × Nat)) (emcos : List Vec3)
    (mask : List Bool) (act : Int) (epsilon : ℚ) (tree_type : Nat) (axis : Nat)
    (hm : mask ≠ []) (ha : act ≠ 0) (hn : faces_num ≠ 0) :
    (bvhtree_from_mesh_edges_create_tree positions edge edge.length mask act epsilon
        tree_type axis).map (fun t => t.prims.map Prod.fst) =
      some ((List.range edge.length).filter fun i => mask.getD i false) ∧
    (bvhtree_from_mesh_verts_create_tree epsilon tree_type axis positions
        positions.length mask act).map (fun t => t.prims.map Prod.fst) =
      some ((List.range positions.length).filter fun i => mask.getD i false) ∧
    (bvhtree_from_mesh_faces_create_tree epsilon tree_type axis (some positions)
        (some face) faces_num mask act).map (fun t => t.prims.map Prod.fst) =
      some ((List.range faces_num).filter fun i => mask.getD i false) ∧
    (bvhtree_from_mesh_looptri_create_tree epsilon tree_type axis (some positions)
        mloop looptris mask act).map (fun t => t.prims.map Prod.fst) =
      some ((List.range looptris.length).filter fun i => mask.getD i false) ∧
    (bvhtree_from_editmesh_verts_create_tree epsilon tree_type axis emcos mask
        act).map (fun t => t.prims.map Prod.fst) =
      some ((List.range emcos.length).filter fun i => mask.getD i false) := by
  have hm2 : mask.isEmpty = false := by
    cases mask with
    | nil => exact absurd rfl hm
    | cons a l => rfl
  refine ⟨?_, ?_, ?_, ?_, ?_⟩
  · unfold bvhtree_from_mesh_edges_create_tree
    simp only [hm2, Bool.false_eq_true, if_false, ha, ite_false, foldl_insert_prims]
    simp [Bool.not_and, Bool.not_not, hm2, bli_bvhtree_new, Function.comp_def]
  · unfold bvhtree_from_mesh_verts_create_tree
    simp only [hm2, Bool.false_eq_true, if_false, ha, ite_false, foldl_insert_prims]
    simp [Bool.not_and, Bool.not_not, hm2, bli_bvhtree_new, Function.comp_def]
  · unfold bvhtree_from_mesh_faces_create_tree
    rw [if_neg hn]
    simp only [hm2, Bool.false_eq_true, if_false, foldl_insert_prims]
    simp [Bool.not_and, Bool.not_not, hm2, bli_bvhtree_new, Function.comp_def]
  · unfold bvhtree_from_mesh_looptri_create_tree
    simp only [hm2, Bool.false_eq_true, if_false, ha, ite_false]
    by_cases he : looptris.isEmpty
    · rw [List.isEmpty_iff] at he
      subst he
      simp [bli_bvhtree_new]
    · have he2 : looptris.isEmpty = false := by
        cases hx : looptris.isEmpty with
        | true => exact absurd hx he
        | false => rfl
      simp only [he2, Bool.false_eq_true, if_false, foldl_insert_prims]
      simp [Bool.not_and, Bool.not_not, hm2, bli_bvhtree_new, Function.comp_def]
  · unfold bvhtree_from_editmesh_verts_create_tree
    simp only [hm2, Bool.false_eq_true, if_false, foldl_insert_prims]
    simp [Bool.not_and, Bool.not_not, hm2, bli_bvhtree_new, Function.comp_def]

/-- Witness for C9 at the spec's concrete instance: five candidates with a
mask selecting indices 1 and 3 insert exactly the tags 1 and 3, for the edge
builder and the tessellated-face builder. -/
theorem builders_preserve_original_indices_witness :
    (([false, true, false, true, false] : List Bool) ≠ []) ∧ ((2 : Int) ≠ 0) ∧
    ((5 : Nat) ≠ 0) ∧
    (bvhtree_from_mesh_edges_create_tree
        [vzero, vzero, vzero, vzero, vzero, vzero]
        [⟨0, 1⟩, ⟨1, 2⟩, ⟨2, 3⟩, ⟨3, 4⟩, ⟨4, 5⟩] 5
        [false, true, false, true, false] 2 0 2 6).map (fun t => t.prims.map Prod.fst) =
      some [1, 3] ∧
    (bvhtree_from_mesh_faces_create_tree 0 2 6
        (some [vzero, vzero, vzero, vzero, vzero, vzero])
        (some [⟨0, 1, 2, 0⟩, ⟨1, 2, 3, 0⟩, ⟨2, 3, 4, 0⟩, ⟨3, 4, 5, 0⟩, ⟨4, 5, 0, 0⟩]) 5
        [false, true, false, true, false] 2).map (fun t => t.prims.map Prod.fst) =
      some [1, 3] := by
  refine ⟨by simp, by simp, by simp, ?_, ?_⟩
  · have h := (builders_preserve_original_indices
        [vzero, vzero, vzero, vzero, vzero, vzero]
        [⟨0, 1⟩, ⟨1, 2⟩, ⟨2, 3⟩, ⟨3, 4⟩, ⟨4, 5⟩]
        [⟨0, 1, 2, 0⟩, ⟨1, 2, 3, 0⟩, ⟨2, 3, 4, 0⟩, ⟨3, 4, 5, 0⟩, ⟨4, 5, 0, 0⟩] 5 [] [] []
        [false, true, false, true, false] 2 0 2 6 (by simp) (by simp) (by simp)).1
    simpa using h
  · have h := (builders_preserve_original_indices
        [vzero, vzero, vzero, vzero, vzero, vzero]
        [⟨0, 1⟩, ⟨1, 2⟩, ⟨2, 3⟩, ⟨3, 4⟩, ⟨4, 5⟩]
        [⟨0, 1, 2, 0⟩, ⟨1, 2, 3, 0⟩, ⟨2, 3, 4, 0⟩, ⟨3, 4, 5, 0⟩, ⟨4, 5, 0, 0⟩] 5 [] [] []
        [false, true, false, true, false] 2 0 2 6 (by simp) (by simp) (by simp)).2.2.1
    simpa using h

/-- Counterexample for C2 as stated: with one candidate face and a mask of
zero active bits, the tessellated-face builder does NOT return "no index": it
allocates and returns a zero-capacity hierarchy; likewise the edit-mesh
vertex builder with zero resolved active count allocates a zero-capacity
hierarchy. -/
theorem zero_active_allocates_counterexample :
    ([false] : List Bool).count true = 0 ∧
    bvhtree_from_mesh_faces_create_tree 0 2 6 (some [vzero]) (some [⟨0, 0, 0, 0⟩]) 1
        [false] 0 = some (bli_bvhtree_new 0 0 2 6) ∧
    bvhtree_from_mesh_faces_create_tree 0 2 6 (some [vzero]) (some [⟨0, 0, 0, 0⟩]) 1
        [false] 0 ≠ none ∧
    bvhtree_from_editmesh_verts_create_tree 0 2 6 [] [] (-1) =
      some (bli_bvhtree_new 0 0 2 6) ∧
    bvhtree_from_editmesh_verts_create_tree 0 2 6 [] [] (-1) ≠ none := by
  have h1 : bvhtree_from_mesh_faces_create_tree 0 2 6 (some [vzero])
      (some [⟨0, 0, 0, 0⟩]) 1 [false] 0 = some (bli_bvhtree_new 0 0 2 6) := rfl
  have h2 : bvhtree_from_editmesh_verts_create_tree 0 2 6 [] [] (-1) =
      some (bli_bvhtree_new 0 0 2 6) := rfl
  exact ⟨rfl, h1, by rw [h1]; simp, h2, by rw [h2]; simp⟩

/-- Claim C2, amended: the mesh vertex, edge and loop-triangle builders return
"no index" with no hierarchy allocated when the resolved active count is
zero; the tessellated-face builder does so only when the CANDIDATE count is
zero and, for a nonzero candidate count with a zero-active mask, instead
allocates and returns a zero-capacity hierarchy with no insertions; the
edit-mesh vertex builder has no zero-active return at all and likewise
returns a zero-capacity hierarchy. -/
theorem zero_active_builders (epsilon : ℚ) (tree_type : Nat) (axis : Nat)
    (verts_num edge_num faces_num : Nat) (positions : List Vec3) (edge : List MEdge)
    (face : List MFace) (mloop : List Nat) (looptris : List (Nat × Nat × Nat))
    (vmask emask fmask lmask : List Bool) (vact eact fact lact : Int)
    (emcos : List Vec3) (em_mask : List Bool) (em_act : Int)
    (hv : (if vmask.isEmpty then (verts_num : Int) else vact) = 0)
    (he : (if emask.isEmpty then (edge_num : Int) else eact) = 0)
    (hl : (if lmask.isEmpty then (looptris.length : Int) else lact) = 0)
    (hfm : fmask ≠ []) (hfz : ∀ i, fmask.getD i false = false) (hfn : faces_num ≠ 0)
    (hea : (if em_mask.isEmpty then (emcos.length : Int) else em_act) = 0)
    (hez : ∀ i, em_mask.getD i false = false) :
    bvhtree_from_mesh_verts_create_tree epsilon tree_type axis positions verts_num
        vmask vact = none ∧
    bvhtree_from_mesh_edges_create_tree positions edge edge_num emask eact epsilon
        tree_type axis = none ∧
    bvhtree_from_mesh_looptri_create_tree epsilon tree_type axis (some positions) mloop
        looptris lmask lact = none ∧
    bvhtree_from_mesh_faces_create_tree epsilon tree_type axis (some positions)
        (some face) 0 fmask fact = none ∧
    bvhtree_from_mesh_faces_create_tree epsilon tree_type axis (some positions)
        (some face) faces_num fmask 0 =
      some (bli_bvhtree_new 0 epsilon tree_type axis) ∧
    bvhtree_from_editmesh_verts_create_tree epsilon tree_type axis emcos em_mask
        em_act = some (bli_bvhtree_new 0 epsilon tree_type axis) := by
  have hfm2 : fmask.isEmpty = false := by
    cases fmask with
    | nil => exact absurd rfl hfm
    | cons a l => rfl
  refine ⟨?_, ?_, ?_, ?_, ?_, ?_⟩
  · unfold bvhtree_from_mesh_verts_create_tree
    have hv2 : (if vmask = [] then (verts_num : Int) else vact) = 0 := by simpa using hv
    simp [hv2]
  · unfold bvhtree_from_mesh_edges_create_tree
    have he2 : (if emask = [] then (edge_num : Int) else eact) = 0 := by simpa using he
    simp [he2]
  · unfold bvhtree_from_mesh_looptri_create_tree
    have hl2 : (if lmask = [] then (looptris.length : Int) else lact) = 0 := by simpa using hl
    simp [hl2]
  · unfold bvhtree_from_mesh_faces_create_tree
    simp
  · unfold bvhtree_from_mesh_faces_create_tree
    rw [if_neg hfn]
    simp only [hfm2, Bool.false_eq_true, if_false]
    rw [foldl_insert_skip _ _ _ _ (fun i => by
      have hz := hfz i
      rw [List.getD_eq_getElem?_getD] at hz
      simp [hfm2, hz])]
    rfl
  · unfold bvhtree_from_editmesh_verts_create_tree
    cases hem : em_mask.isEmpty with
    | true =>
        rw [List.isEmpty_iff] at hem
        subst hem
        simp only [List.isEmpty_nil, if_true] at hea
        have hlen : emcos.length = 0 := by exact_mod_cast hea
        simp [hlen]
    | false =>
        simp only [hem, Bool.false_eq_true, if_false] at hea ⊢
        rw [foldl_insert_skip _ _ _ _ (fun i => by
          have hz := hez i
          rw [List.getD_eq_getElem?_getD] at hz
          simp [hem, hz])]
        rw [hea]
        rfl

/-- Witness for C2 (amended) at concrete inputs: empty candidate sets with no
mask for the mesh builders, one face with an all-false mask, one edit-mesh
vertex with an all-false mask and active count 0. -/
theorem zero_active_builders_witness :
    ((if ([] : List Bool).isEmpty then ((0 : Nat) : Int) else -1) = 0) ∧
    ((if ([] : List Bool).isEmpty then ((0 : Nat) : Int) else -1) = 0) ∧
    ((if ([] : List Bool).isEmpty then ((([] : List (Nat × Nat × Nat)).length : Nat) : Int)
        else -1) = 0) ∧
    (([false] : List Bool) ≠ []) ∧ (∀ i, ([false] : List Bool).getD i false = false) ∧
    ((1 : Nat) ≠ 0) ∧
    ((if ([false] : List Bool).isEmpty then (([vzero] : List Vec3).length : Int)
        else 0) = 0) ∧
    bvhtree_from_mesh_verts_create_tree 0 2 6 [] 0 [] (-1) = none ∧
    bvhtree_from_mesh_faces_create_tree 0 2 6 (some []) (some [⟨0, 0, 0, 0⟩]) 1 [false] 0 =
      some (bli_bvhtree_new 0 0 2 6) ∧
    bvhtree_from_editmesh_verts_create_tree 0 2 6 [vzero] [false] 0 =
      some (bli_bvhtree_new 0 0 2 6) := by
  have hz : ∀ i, ([false] : List Bool).getD i false = false := by
    intro i
    cases i with
    | zero => rfl
    | succ k => rfl
  have h := zero_active_builders 0 2 6 0 0 1 [] [] [⟨0, 0, 0, 0⟩] [] [] [] [] [false] []
    (-1) (-1) 7 (-1) [vzero] [false] 0 (by simp) (by simp) (by simp) (by simp) hz
    (by simp) (by simp) hz
  exact ⟨by simp, by simp, by simp, by simp, hz, by simp, by simp, h.1, h.2.2.2.2.1,
    h.2.2.2.2.2⟩

/-! ### Claim theorem about the ray-cast adapters (C6) -/

/-- Claim C6: each triangle ray-cast adapter overwrites the hit record exactly
when the newly computed distance is non-negative and strictly below the
current best, and leaves it unchanged otherwise; the shared loop body equals
the spec-side conditional update, the loop-triangle and edit-mesh adapters
run it once on their fetched triangle, and the tessellated-face adapter runs
it once for a triangle and twice (chained, against the running best) for a
quad fan. -/
theorem spherecast_updates_iff (g : GeomOracle) (data : BVHTreeFromMeshData)
    (em : BMEditMesh) (index : Nat) (ray : BVHTreeRay) (hit : BVHTreeRayHit)
    (t0 t1 t2 : Vec3) :
    (¬ (0 ≤ spherecast_new_dist g ray hit.dist t0 t1 t2 ∧
          spherecast_new_dist g ray hit.dist t0 t1 t2 < hit.dist) →
        spherecast_tri_step g index ray hit t0 t1 t2 = hit) ∧
    ((0 ≤ spherecast_new_dist g ray hit.dist t0 t1 t2 ∧
          spherecast_new_dist g ray hit.dist t0 t1 t2 < hit.dist) →
        spherecast_tri_step g index ray hit t0 t1 t2 =
          ⟨(index : Int), spherecast_new_dist g ray hit.dist t0 t1 t2,
            vmadd ray.origin ray.direction (spherecast_new_dist g ray hit.dist t0 t1 t2),
            g.normal_tri t0 t1 t2⟩) ∧
    spherecast_tri_step g index ray hit t0 t1 t2 =
      hit_update_spec (index : Int) (spherecast_new_dist g ray hit.dist t0 t1 t2)
        (vmadd ray.origin ray.direction (spherecast_new_dist g ray hit.dist t0 t1 t2))
        (g.normal_tri t0 t1 t2) hit ∧
    mesh_looptri_spherecast g data index ray hit =
      spherecast_tri_step g index ray hit
        (data.vert_positions.getD (data.loop.getD (data.looptri.getD index (0, 0, 0)).1 0)
          vzero)
        (data.vert_positions.getD (data.loop.getD (data.looptri.getD index (0, 0, 0)).2.1 0)
          vzero)
        (data.vert_positions.getD (data.loop.getD (data.looptri.getD index (0, 0, 0)).2.2 0)
          vzero) ∧
    editmesh_looptri_spherecast g em index ray hit =
      spherecast_tri_step g index ray hit
        (em.looptris.getD index (vzero, vzero, vzero)).1
        (em.looptris.getD index (vzero, vzero, vzero)).2.1
        (em.looptris.getD index (vzero, vzero, vzero)).2.2 ∧
    ((data.face.getD index ⟨0, 0, 0, 0⟩).v4 = 0 →
      mesh_faces_spherecast g data index ray hit =
        spherecast_tri_step g index ray hit
          (data.vert_positions.getD (data.face.getD index ⟨0, 0, 0, 0⟩).v1 vzero)
          (data.vert_positions.getD (data.face.getD index ⟨0, 0, 0, 0⟩).v2 vzero)
          (data.vert_positions.getD (data.face.getD index ⟨0, 0, 0, 0⟩).v3 vzero)) ∧
    ((data.face.getD index ⟨0, 0, 0, 0⟩).v4 ≠ 0 →
      mesh_faces_spherecast g data index ray hit =
        spherecast_tri_step g index ray
          (spherecast_tri_step g index ray hit
            (data.vert_positions.getD (data.face.getD index ⟨0, 0, 0, 0⟩).v1 vzero)
            (data.vert_positions.getD (data.face.getD index ⟨0, 0, 0, 0⟩).v2 vzero)
            (data.vert_positions.getD (data.face.getD index ⟨0, 0, 0, 0⟩).v3 vzero))
          (data.vert_positions.getD (data.face.getD index ⟨0, 0, 0, 0⟩).v1 vzero)
          (data.vert_positions.getD (data.face.getD index ⟨0, 0, 0, 0⟩).v3 vzero)
          (data.vert_positions.getD (data.face.getD index ⟨0, 0, 0, 0⟩).v4 vzero)) := by
  refine ⟨?_, ?_, rfl, rfl, rfl, ?_, ?_⟩
  · intro h
    simp only [spherecast_tri_step]
    rw [if_neg h]
  · intro h
    simp only [spherecast_tri_step]
    rw [if_pos h]
  · intro h
    simp only [mesh_faces_spherecast, h]
    simp
  · intro h
    simp only [mesh_faces_spherecast]
    rw [if_pos h]

/-- Witness for C6 at concrete inputs: an oracle whose exact test reports
distance 1 against a best of 5 (the update fires), applied through the shared
loop body, and a quad face exercising the two-step fan clause. -/
theorem spherecast_updates_iff_witness :
    ((0 ≤ spherecast_new_dist
          ⟨fun _ _ _ _ _ => some 1, fun _ _ _ _ _ _ => some 1, fun _ _ _ => vzero⟩
          ⟨vzero, (0, 0, 1), 0⟩ (5 : ℚ) vzero vzero vzero ∧
        spherecast_new_dist
          ⟨fun _ _ _ _ _ => some 1, fun _ _ _ _ _ _ => some 1, fun _ _ _ => vzero⟩
          ⟨vzero, (0, 0, 1), 0⟩ (5 : ℚ) vzero vzero vzero < (5 : ℚ)) ∧
      spherecast_tri_step
          ⟨fun _ _ _ _ _ => some 1, fun _ _ _ _ _ _ => some 1, fun _ _ _ => vzero⟩
          0 ⟨vzero, (0, 0, 1), 0⟩ ⟨-1, 5, vzero, vzero⟩ vzero vzero vzero =
        ⟨0, 1, (0, 0, 1), vzero⟩) ∧
    (((BVHTreeFromMeshData.mk [vzero] [⟨0, 0, 0, 1⟩] [] []).face.getD 0
          ⟨0, 0, 0, 0⟩).v4 ≠ 0 ∧
      mesh_faces_spherecast
          ⟨fun _ _ _ _ _ => some 1, fun _ _ _ _ _ _ => some 1, fun _ _ _ => vzero⟩
          (BVHTreeFromMeshData.mk [vzero] [⟨0, 0, 0, 1⟩] [] []) 0
          ⟨vzero, (0, 0, 1), 0⟩ ⟨-1, 5, vzero, vzero⟩ =
        spherecast_tri_step
          ⟨fun _ _ _ _ _ => some 1, fun _ _ _ _ _ _ => some 1, fun _ _ _ => vzero⟩
          0 ⟨vzero, (0, 0, 1), 0⟩
          (spherecast_tri_step
            ⟨fun _ _ _ _ _ => some 1, fun _ _ _ _ _ _ => some 1, fun _ _ _ => vzero⟩
            0 ⟨vzero, (0, 0, 1), 0⟩ ⟨-1, 5, vzero, vzero⟩ vzero vzero vzero)
          vzero vzero vzero) := by
  have hcond : (0 ≤ spherecast_new_dist
      ⟨fun _ _ _ _ _ => some 1, fun _ _ _ _ _ _ => some 1, fun _ _ _ => vzero⟩
      ⟨vzero, (0, 0, 1), 0⟩ (5 : ℚ) vzero vzero vzero ∧
      spherecast_new_dist
        ⟨fun _ _ _ _ _ => some 1, fun _ _ _ _ _ _ => some 1, fun _ _ _ => vzero⟩
        ⟨vzero, (0, 0, 1), 0⟩ (5 : ℚ) vzero vzero vzero < (5 : ℚ)) := by
    constructor
    · show (0 : ℚ) ≤ 1
      norm_num
    · show (1 : ℚ) < 5
      norm_num
  have h1 := (spherecast_updates_iff
      ⟨fun _ _ _ _ _ => some 1, fun _ _ _ _ _ _ => some 1, fun _ _ _ => vzero⟩
      (BVHTreeFromMeshData.mk [vzero] [⟨0, 0, 0, 1⟩] [] []) ⟨[]⟩ 0
      ⟨vzero, (0, 0, 1), 0⟩ ⟨-1, 5, vzero, vzero⟩ vzero vzero vzero).2.1 hcond
  have h2 := (spherecast_updates_iff
      ⟨fun _ _ _ _ _ => some 1, fun _ _ _ _ _ _ => some 1, fun _ _ _ => vzero⟩
      (BVHTreeFromMeshData.mk [vzero] [⟨0, 0, 0, 1⟩] [] []) ⟨[]⟩ 0
      ⟨vzero, (0, 0, 1), 0⟩ ⟨-1, 5, vzero, vzero⟩ vzero vzero vzero).2.2.2.2.2.2
      (by norm_num)
  refine ⟨⟨hcond, ?_⟩, ⟨by norm_num, ?_⟩⟩
  · rw [h1]
    show (⟨0, 1, vmadd vzero (0, 0, 1) 1, vzero⟩ : BVHTreeRayHit) = ⟨0, 1, (0, 0, 1), vzero⟩
    norm_num [vmadd, vzero]
  · exact h2

/-! ### Helper lemmas for the loose-vertex scan (C8) -/

/-- Membership in the spec-side touched-vertex set: vertex `i` is referenced
by some edge of the list. -/
theorem touched_verts_spec_mem (edges : List MEdge) (i : Nat) :
    i ∈ touched_verts_spec edges ↔ ∃ e ∈ edges, e.v1 = i ∨ e.v2 = i := by
  simp only [touched_verts_spec, List.mem_toFinset, List.mem_flatMap, List.mem_cons,
    List.mem_singleton, List.not_mem_nil, or_false]
  constructor
  · rintro ⟨e, he, h | h⟩
    · exact ⟨e, he, Or.inl h.symm⟩
    · exact ⟨e, he, Or.inr h.symm⟩
  · rintro ⟨e, he, h | h⟩
    · exact ⟨e, he, Or.inl h.symm⟩
    · exact ⟨e, he, Or.inr h.symm⟩

theorem loose_verts_endpoint (n v : Nat) (mask : List Bool) (cnt : Nat) (T : Finset Nat)
    (hlen : mask.length = n)
    (hmask : ∀ i, mask.getD i false = (decide (i < n) && !decide (i ∈ T)))
    (hcnt : cnt = T.card) (hv : v < n) :
    (if mask.getD v false then (mask.set v false, cnt + 1) else (mask, cnt)).1.length = n ∧
    (∀ i, (if mask.getD v false then (mask.set v false, cnt + 1) else (mask, cnt)).1.getD i
        false = (decide (i < n) && !decide (i ∈ insert v T))) ∧
    (if mask.getD v false then (mask.set v false, cnt + 1) else (mask, cnt)).2 =
      (insert v T).card := by
  by_cases hm : mask.getD v false = true
  · have h1 := hmask v
    rw [hm] at h1
    have hvT : v ∉ T := by
      by_contra hT2
      simp [hv, hT2] at h1
    simp only [hm, if_true]
    refine ⟨by simp [hlen], ?_, ?_⟩
    · intro i
      by_cases hiv : i = v
      · subst hiv
        have hset : (mask.set i false).getD i false = false := by
          rw [List.getD_eq_getElem?_getD, List.getElem?_set_self (by omega)]
          rfl
        rw [hset]
        simp
      · have hset : (mask.set v false).getD i false = mask.getD i false := by
          rw [List.getD_eq_getElem?_getD, List.getD_eq_getElem?_getD,
            List.getElem?_set_ne (fun hh => hiv hh.symm)]
        rw [hset, hmask i]
        simp [Finset.mem_insert, hiv]
    · rw [hcnt, Finset.card_insert_of_not_mem hvT]
  · have hm2 : mask.getD v false = false := by
      cases hx : mask.getD v false with
      | true => exact absurd hx hm
      | false => rfl
    have h1 := hmask v
    rw [hm2] at h1
    have hvT : v ∈ T := by
      by_contra hT2
      simp [hv, hT2] at h1
    have hins : insert v T = T := Finset.insert_eq_self.mpr hvT
    simp only [hm2, Bool.false_eq_true, if_false, hins]
    exact ⟨hlen, hmask, hcnt⟩

theorem loose_verts_foldl_invariant (n : Nat) (edges : List MEdge) :
    ∀ (mask : List Bool) (cnt : Nat) (T : Finset Nat),
    mask.length = n →
    (∀ i, mask.getD i false = (decide (i < n) && !decide (i ∈ T))) →
    cnt = T.card →
    (∀ e ∈ edges, e.v1 < n ∧ e.v2 < n) →
    (edges.foldl loose_verts_step (mask, cnt)).1.length = n ∧
    (∀ i, (edges.foldl loose_verts_step (mask, cnt)).1.getD i false =
        (decide (i < n) && !decide (i ∈ T ∪ touched_verts_spec edges))) ∧
    (edges.foldl loose_verts_step (mask, cnt)).2 = (T ∪ touched_verts_spec edges).card := by
  induction edges with
  | nil =>
      intro mask cnt T hlen hmask hcnt _
      simp only [List.foldl_nil]
      refine ⟨hlen, ?_, ?_⟩
      · intro i
        rw [hmask i]
        simp [touched_verts_spec]
      · rw [hcnt]
        simp [touched_verts_spec]
  | cons e rest ih =>
      intro mask cnt T hlen hmask hcnt hedges
      have hv1 : e.v1 < n := (hedges e (by simp)).1
      have hv2 : e.v2 < n := (hedges e (by simp)).2
      obtain ⟨l1, m1, c1⟩ := loose_verts_endpoint n e.v1 mask cnt T hlen hmask hcnt hv1
      obtain ⟨l2, m2, c2⟩ := loose_verts_endpoint n e.v2 _ _ (insert e.v1 T) l1 m1 c1 hv2
      have hrest := ih _ _ (insert e.v2 (insert e.v1 T)) l2 m2 c2
        (fun e2 he2 => hedges e2 (by simp [he2]))
      have htc : touched_verts_spec (e :: rest) =
          insert e.v1 (insert e.v2 (touched_verts_spec rest)) := by
        simp [touched_verts_spec, List.toFinset_append, Finset.insert_union]
      have hT : insert e.v2 (insert e.v1 T) ∪ touched_verts_spec rest =
          T ∪ touched_verts_spec (e :: rest) := by
        rw [htc]
        ext x
        simp only [Finset.mem_union, Finset.mem_insert]
        tauto
      rw [List.foldl_cons]
      have hstep : loose_verts_step (mask, cnt) e =
          (if (if mask.getD e.v1 false then (mask.set e.v1 false, cnt + 1)
                else (mask, cnt)).1.getD e.v2 false then
            ((if mask.getD e.v1 false then (mask.set e.v1 false, cnt + 1)
                else (mask, cnt)).1.set e.v2 false,
              (if mask.getD e.v1 false then (mask.set e.v1 false, cnt + 1)
                else (mask, cnt)).2 + 1)
          else (if mask.getD e.v1 false then (mask.set e.v1 false, cnt + 1)
                else (mask, cnt))) := rfl
      rw [hstep]
      rw [hT] at hrest
      exact hrest

/-! ### Claim theorem about the loose-vertex derivation (C8) -/

/-- Claim C8: the loose-vertex scan produces a mask of one bit per vertex in
which vertex `i` is active iff no edge references `i` as either endpoint, and
the reported count is the total vertex count minus the number of distinct
edge-touched vertices. -/
theorem loose_verts_characterization (edges : List MEdge) (n : Nat)
    (he : ∀ e ∈ edges, e.v1 < n ∧ e.v2 < n) :
    (loose_verts_map_get edges n).1.length = n ∧
    (∀ i, i < n → ((loose_verts_map_get edges n).1.getD i false = true ↔
        ∀ e ∈ edges, e.v1 ≠ i ∧ e.v2 ≠ i)) ∧
    (loose_verts_map_get edges n).2 = n - (touched_verts_spec edges).card := by
  have hbase : ∀ i, (List.replicate n true).getD i false =
      (decide (i < n) && !decide (i ∈ (∅ : Finset Nat))) := by
    intro i
    rw [List.getD_eq_getElem?_getD, List.getElem?_replicate]
    by_cases hi : i < n <;> simp [hi]
  obtain ⟨hl, hm, hc⟩ := loose_verts_foldl_invariant n edges (List.replicate n true) 0 ∅
    (by simp) hbase (by simp) he
  refine ⟨hl, ?_, ?_⟩
  · intro i hi
    rw [show (loose_verts_map_get edges n).1.getD i false =
        (decide (i < n) && !decide (i ∈ (∅ : Finset Nat) ∪ touched_verts_spec edges))
      from hm i]
    simp [hi, touched_verts_spec_mem, Finset.empty_union, not_or]
  · show n - (edges.foldl loose_verts_step (List.replicate n true, 0)).2 =
      n - (touched_verts_spec edges).card
    rw [hc]
    simp

/-- Witness for C8 at a concrete input: four vertices, edges touching
vertices 0, 1 and 2, leaving vertex 3 loose. -/
theorem loose_verts_characterization_witness :
    (∀ e ∈ ([⟨0, 1⟩, ⟨1, 2⟩] : List MEdge), e.v1 < 4 ∧ e.v2 < 4) ∧
    ((loose_verts_map_get [⟨0, 1⟩, ⟨1, 2⟩] 4).1.length = 4 ∧
      (∀ i, i < 4 → ((loose_verts_map_get [⟨0, 1⟩, ⟨1, 2⟩] 4).1.getD i false = true ↔
          ∀ e ∈ ([⟨0, 1⟩, ⟨1, 2⟩] : List MEdge), e.v1 ≠ i ∧ e.v2 ≠ i)) ∧
      (loose_verts_map_get [⟨0, 1⟩, ⟨1, 2⟩] 4).2 =
        4 - (touched_verts_spec [⟨0, 1⟩, ⟨1, 2⟩]).card) := by
  refine ⟨?_, loose_verts_characterization [⟨0, 1⟩, ⟨1, 2⟩] 4 ?_⟩ <;>
    · intro e hee
      rcases List.mem_cons.mp hee with h | h
      · subst h
        exact ⟨by norm_num, by norm_num⟩
      · rcases List.mem_cons.mp h with h2 | h2
        · subst h2
          exact ⟨by norm_num, by norm_num⟩
        · simp at h2

/-! ### Helper lemmas for the no-hidden triangle mask (C7) -/

theorem foldl_set_range_true (A : List Bool) (base r tn : Nat)
    (hbase : base = A.length) (htn : tn ≤ r) :
    ((List.range tn).foldl (fun m k => m.set (base + k) true)
        (A ++ List.replicate r false)) =
      A ++ (List.replicate tn true ++ List.replicate (r - tn) false) := by
  induction tn with
  | zero => simp
  | succ t iht =>
      rw [List.range_succ, List.foldl_append, iht (Nat.le_of_succ_le htn),
        List.foldl_cons, List.foldl_nil]
      rw [List.set_append, if_neg (by simp [hbase])]
      have h1 : base + t - A.length = t := by omega
      rw [h1, List.set_append, if_neg (by simp)]
      have h2 : t - (List.replicate t true).length = 0 := by simp
      rw [h2]
      have h3 : r - t = (r - t - 1) + 1 := by omega
      rw [h3, List.replicate_succ, List.set_cons_zero]
      have h4 : r - (t + 1) = r - t - 1 := by omega
      rw [h4, List.replicate_succ']
      simp

theorem flatten_replicate_length (np : Nat) (f : Nat → Nat) (b : Nat → Bool) :
    (((List.range np).map fun i => List.replicate (f i) (b i)).flatten).length =
      ((List.range np).map f).sum := by
  rw [List.length_flatten, List.map_map]
  simp [Function.comp_def]

theorem foldl_range_step {B : Type} (f : B → Nat → B) (b : B) (n : Nat) :
    (List.range (n + 1)).foldl f b = f ((List.range n).foldl f b) n := by
  rw [List.range_succ, List.foldl_append, List.foldl_cons, List.foldl_nil]

theorem no_hidden_fold_run (polys : List Nat) (hide : VArrayBool) (L : Nat) (np : Nat)
    (hm : ((List.range np).map fun i => ME_POLY_TRI_TOT (polys.getD i 0)).sum ≤ L) :
    ((List.range np).foldl
        (fun (st : List Bool × Nat × Nat) i =>
          let triangles_num := ME_POLY_TRI_TOT (polys.getD i 0)
          if hide.get i then (st.1, st.2.1 + triangles_num, st.2.2)
          else
            ((List.range triangles_num).foldl (fun m k => m.set (st.2.1 + k) true) st.1,
              st.2.1 + triangles_num, st.2.2 + triangles_num))
        (List.replicate L false, 0, 0)) =
      (((List.range np).map fun i =>
          List.replicate (ME_POLY_TRI_TOT (polys.getD i 0)) (!hide.get i)).flatten ++
          List.replicate
            (L - ((List.range np).map fun i => ME_POLY_TRI_TOT (polys.getD i 0)).sum) false,
        ((List.range np).map fun i => ME_POLY_TRI_TOT (polys.getD i 0)).sum,
        (((List.range np).map fun i =>
          List.replicate (ME_POLY_TRI_TOT (polys.getD i 0)) (!hide.get i)).flatten).count
          true) := by
  induction np with
  | zero => simp
  | succ m ih =>
      have hms : ((List.range (m + 1)).map fun i => ME_POLY_TRI_TOT (polys.getD i 0)).sum =
          ((List.range m).map fun i => ME_POLY_TRI_TOT (polys.getD i 0)).sum +
            ME_POLY_TRI_TOT (polys.getD m 0) := by
        rw [List.range_succ, List.map_append, List.sum_append]
        simp
      rw [hms] at hm
      have hm2 : ((List.range m).map fun i => ME_POLY_TRI_TOT (polys.getD i 0)).sum ≤ L := by
        omega
      have hfs : ((List.range (m + 1)).map fun i =>
          List.replicate (ME_POLY_TRI_TOT (polys.getD i 0)) (!hide.get i)).flatten =
          ((List.range m).map fun i =>
            List.replicate (ME_POLY_TRI_TOT (polys.getD i 0)) (!hide.get i)).flatten ++
            List.replicate (ME_POLY_TRI_TOT (polys.getD m 0)) (!hide.get m) := by
        rw [List.range_succ, List.map_append, List.flatten_append]
        simp
      have hlen : ((List.range m).map fun i => ME_POLY_TRI_TOT (polys.getD i 0)).sum =
          (((List.range m).map fun i =>
            List.replicate (ME_POLY_TRI_TOT (polys.getD i 0)) (!hide.get i)).flatten).length :=
        (flatten_replicate_length m _ _).symm
      rw [foldl_range_step, ih hm2, hfs, hms]
      by_cases hh : hide.get m = true
      · simp only [hh, if_true, Bool.not_true, Prod.mk.injEq]
        refine ⟨?_, trivial, ?_⟩
        · have hsplit : L - ((List.range m).map fun i =>
              ME_POLY_TRI_TOT (polys.getD i 0)).sum =
              ME_POLY_TRI_TOT (polys.getD m 0) +
                (L - (((List.range m).map fun i =>
                  ME_POLY_TRI_TOT (polys.getD i 0)).sum +
                  ME_POLY_TRI_TOT (polys.getD m 0))) := by
            omega
          rw [hsplit, List.replicate_add]
          simp [List.append_assoc]
        · rw [List.count_append]
          simp [List.count_replicate]
      · have hh2 : hide.get m = false := by
          cases hx : hide.get m with
          | true => exact absurd hx hh
          | false => rfl
        simp only [hh2, Bool.false_eq_true, if_false, Bool.not_false, Prod.mk.injEq]
        refine ⟨?_, trivial, ?_⟩
        · rw [foldl_set_range_true _ _ _ _ hlen (by omega)]
          rw [Nat.sub_sub]
          simp [List.append_assoc]
        · rw [List.count_append, List.count_replicate]
          simp

/-! ### Claim theorems about the no-hidden triangle mask (C7) -/

/-- Counterexample for C7 as stated: a visibility lookup that is uniformly
false but stored per-element (a non-single varray) DOES materialize a mask —
the claim's "hidden attribute ... all-false" case is not skipped. One
triangle polygon, hide attribute stored as the array `[false]`: every lookup
is false, yet the returned mask is the materialized `[true]`, not absent. -/
theorem no_hidden_materializes_counterexample :
    VArrayBool.get (VArrayBool.array [false]) 0 = false ∧
    (VArrayBool.array [false]).is_single = false ∧
    (looptri_no_hidden_map_get [3] (VArrayBool.array [false]) 1).1 = [true] ∧
    (looptri_no_hidden_map_get [3] (VArrayBool.array [false]) 1).1 ≠ [] := by
  exact ⟨rfl, rfl, rfl, by decide⟩

/-- Claim C7, amended: the mask is skipped (empty, count out-parameter not
written) exactly when the hide lookup is a SINGLE (uniform-representation)
varray whose value is false — as when the attribute is absent; a per-element
stored all-false attribute still materializes a mask. In the materializing
case the result is the per-polygon contiguous block mask (each polygon's
triangles in tessellation order, active iff the polygon is not hidden) and
the reported count is the number of active bits. -/
theorem no_hidden_map_characterization (polys : List Nat) (hide : VArrayBool)
    (looptri_len : Nat)
    (hsum : ((List.range polys.length).map fun i => ME_POLY_TRI_TOT (polys.getD i 0)).sum =
      looptri_len) :
    ((hide.is_single && !hide.get_internal_single) = true →
        looptri_no_hidden_map_get polys hide looptri_len = ([], none)) ∧
    ((hide.is_single && !hide.get_internal_single) = false →
        looptri_no_hidden_map_get polys hide looptri_len =
          (no_hidden_mask_spec polys hide,
            some ((no_hidden_mask_spec polys hide).count true))) := by
  constructor
  · intro h
    unfold looptri_no_hidden_map_get
    rw [if_pos h]
  · intro h
    unfold looptri_no_hidden_map_get
    rw [if_neg (by simp [h])]
    rw [no_hidden_fold_run polys hide looptri_len polys.length (le_of_eq hsum)]
    rw [hsum]
    simp [no_hidden_mask_spec]

/-- Witness for C7 (amended) at concrete inputs: a hidden triangle polygon
followed by a visible quad polygon under a per-element attribute (mask
`[false, true, true]`, count 2), and a single-false attribute (mask skipped). -/
theorem no_hidden_map_characterization_witness :
    (((List.range ([3, 4] : List Nat).length).map fun i =>
        ME_POLY_TRI_TOT (([3, 4] : List Nat).getD i 0)).sum = 3) ∧
    (((VArrayBool.array [true, false]).is_single &&
        !(VArrayBool.array [true, false]).get_internal_single) = false) ∧
    looptri_no_hidden_map_get [3, 4] (VArrayBool.array [true, false]) 3 =
      ([false, true, true], some 2) ∧
    (((VArrayBool.single false).is_single &&
        !(VArrayBool.single false).get_internal_single) = true) ∧
    looptri_no_hidden_map_get [3] (VArrayBool.single false) 1 = ([], none) := by
  refine ⟨by decide, by decide, ?_, by decide, ?_⟩
  · have h := (no_hidden_map_characterization [3, 4] (VArrayBool.array [true, false]) 3
      (by decide)).2 (by decide)
    rw [h]
    rfl
  · exact (no_hidden_map_characterization [3] (VArrayBool.single false) 1 (by decide)).1
      (by decide)

end BVHUtils
